import Mathlib

/-!
Verification of `pkg/aws/eni/node_manager.go` (ENI node manager of the
cilium repository) against its specification.

The file `node_manager.go` is embedded directly.  The per-node type `Node`
and its methods (`recalculateLocked`, `getNeededAddresses`,
`updatedResource`, `ResolveIPDeficit`, `SyncToAPIServer`) live in a file
that is not part of the sources; where their behaviour matters they are
either taken as explicit function parameters of the embedded manager
operations or modelled from the specification, as marked in the doc
comments.  Go `int` is embedded as `Int`; the Go map `nodeMap` is embedded
as an association list (Go map iteration order is unspecified, matching an
arbitrary list order); mutexes and logging are dropped, external side
effects (metrics gauges, trigger enqueues, status pushes) are made explicit
as returned event traces.
-/

namespace CiliumENI

/-- Modelled from the spec: the external CiliumNode custom resource
(defined outside the sources, in the k8s API package).  Only its name is
inspected by the manager; `payload` stands for the remaining resource
fields so that distinct resources with the same name exist. -/
structure CiliumNode where
  name : String
  payload : Nat
  deriving DecidableEq, Repr

/-- The `stats` snapshot of a node, fields as in the spec's data model:
`availableIPs`, `usedIPs`, `neededIPs`, `remainingInterfaces` (Go `int`,
embedded as `Int`). -/
structure NodeStats where
  availableIPs : Int
  usedIPs : Int
  neededIPs : Int
  remainingInterfaces : Int
  deriving DecidableEq, Repr

/-- Modelled from the spec: the per-node allocation state `Node` (its Go
definition, `node.go`, is not among the sources; the fields are those the
spec's data model lists and `node_manager.go` reads: `name`, `stats`,
`resyncNeeded`, plus the last ingested resource standing for the node's
merged external state).  The `manager` back-pointer and the node mutex of
the Go struct have no observable content in this sequential embedding and
are dropped. -/
structure Node where
  name : String
  stats : NodeStats
  resyncNeeded : Bool
  resource : Option CiliumNode
  deriving DecidableEq, Repr

/-- Modelled from the spec: `getNeededAddresses` returns the node's
current shortfall (the spec's "neededIPs-equivalent priority metric"). -/
def Node.getNeededAddresses (nd : Node) : Int :=
  nd.stats.neededIPs

/-- A node is at capacity iff no interface slot remains and no spare
address remains: `remainingInterfaces == 0 && availableOnNode == 0` with
`availableOnNode := availableIPs - usedIPs`, exactly the condition of the
`nodesAtCapacity++` branch of `Resync`. -/
def Node.atCapacity (nd : Node) : Bool :=
  nd.stats.remainingInterfaces == 0 && (nd.stats.availableIPs - nd.stats.usedIPs) == 0

/-- Modelled from the spec: the coalescing trigger primitive (the trigger
package is not among the sources).  Only its identity matters to the
manager's construction; scheduling is external. -/
structure Trigger where
  name : String
  minIntervalSeconds : Nat
  deriving DecidableEq, Repr

/-- `NodeManager` of `node_manager.go`: the node map (embedded as an
association list) and the two trigger fields, `none` until wired by the
constructor.  The external API interface fields (`instancesAPI`, `ec2API`,
`k8sAPI`, `metricsAPI`) are pure capability records with no state observed
by the manager and are dropped; their calls appear as explicit events. -/
structure NodeManager where
  nodes : List (String × Node)
  resyncTrigger : Option Trigger
  deficitResolver : Option Trigger
  deriving DecidableEq, Repr

/-- Lookup in the embedded node map (Go `n.nodes[name]`). -/
def mapLookup (k : String) : List (String × Node) → Option Node
  | [] => none
  | (k', v) :: rest => if k' = k then some v else mapLookup k rest

/-- Replace the value stored at a key (the effect of Go's in-place mutation
of the `*Node` held in the map). -/
def mapReplace (k : String) (v : Node) : List (String × Node) → List (String × Node)
  | [] => []
  | (k', v') :: rest =>
      if k' = k then (k', v) :: rest else (k', v') :: mapReplace k v rest

/-- `GetNames` returns the list of all node names (map keys). -/
def NodeManager.GetNames (n : NodeManager) : List String :=
  n.nodes.map Prod.fst

/-- Modelled from the spec: `updatedResource` (`IngestResourceUpdate`)
merges the external resource into the node's local state and returns
whether anything observable changed. -/
def Node.updatedResource (nd : Node) (resource : CiliumNode) : Node × Bool :=
  ({ nd with resource := some resource }, decide (nd.resource ≠ some resource))

/-- `Update`: look the resource's name up; if absent create a fresh `Node`
(zero-valued fields, as Go's composite literal `&Node{name: .., manager: n}`
leaves them) and insert it; then deliver the resource to the node's
`updatedResource` and return its change flag.  The Go code stores the node
first and then mutates it through the pointer; the embedding stores the
post-`updatedResource` node, the net effect. -/
def NodeManager.Update (n : NodeManager) (resource : CiliumNode) : NodeManager × Bool :=
  match mapLookup resource.name n.nodes with
  | some node =>
      let p := node.updatedResource resource
      ({ n with nodes := mapReplace resource.name p.1 n.nodes }, p.2)
  | none =>
      let node : Node :=
        { name := resource.name
          stats := ⟨0, 0, 0, 0⟩
          resyncNeeded := false
          resource := none }
      let p := node.updatedResource resource
      ({ n with nodes := n.nodes ++ [(node.name, p.1)] }, p.2)

/-- `Delete`: remove the entry from the node map. -/
def NodeManager.Delete (n : NodeManager) (nodeName : String) : NodeManager :=
  { n with nodes := n.nodes.filter (fun p => p.1 != nodeName) }

/-- `Get`: read-lock lookup by name. -/
def NodeManager.Get (n : NodeManager) (nodeName : String) : Option Node :=
  mapLookup nodeName n.nodes

/-- The sort relation of `GetNodesByNeededAddresses`: `a` may precede `b`
when `a`'s needed-address count is at least `b`'s. -/
def needGE (a b : Node) : Prop :=
  b.getNeededAddresses ≤ a.getNeededAddresses

instance : DecidableRel needGE := fun a b =>
  inferInstanceAs (Decidable (b.getNeededAddresses ≤ a.getNeededAddresses))

instance : IsTotal Node needGE :=
  ⟨fun a b => le_total b.getNeededAddresses a.getNeededAddresses⟩

instance : IsTrans Node needGE :=
  ⟨fun _ _ _ hab hbc => le_trans hbc hab⟩

/-- `GetNodesByNeededAddresses`: collect all map values, then sort by
needed addresses in descending order (Go `sort.Slice` with the comparator
`list[i].getNeededAddresses() > list[j].getNeededAddresses()`; `sort.Slice`
is an unspecified, unstable comparison sort, so any sort satisfying the
comparator — here insertion sort — is a faithful embedding). -/
def NodeManager.GetNodesByNeededAddresses (n : NodeManager) : List Node :=
  (n.nodes.map Prod.snd).insertionSort needGE

/-- `NewNodeManager`: construct the manager with an empty node map, then
initialize the deficit-resolver trigger and the resync trigger in turn;
a failure of either initialization is returned as an error (with the Go
`fmt.Errorf` text) and no manager is produced.  The outcome of each
`trigger.NewTrigger` call (the trigger package is not among the sources)
is taken as a parameter. -/
def NewNodeManager (deficitInit resyncInit : Except String Trigger) :
    Except String NodeManager :=
  let mngr : NodeManager :=
    { nodes := [], resyncTrigger := none, deficitResolver := none }
  match deficitInit with
  | Except.error err =>
      Except.error ("unable to initialize deficit resolver trigger: " ++ err)
  | Except.ok deficitResolver =>
      match resyncInit with
      | Except.error err =>
          Except.error ("unable to initialize resync trigger: " ++ err)
      | Except.ok resyncTrigger =>
          Except.ok { mngr with
            resyncTrigger := some resyncTrigger
            deficitResolver := some deficitResolver }

/-- Observable outcome for one name handled by the deficit-resolver
trigger function: deficit resolved, resolution failed (warning logged), or
node disappeared while the request was queued (warning logged). -/
inductive HandlerEvent where
  | resolved (nodeName : String)
  | resolveFailed (nodeName : String) (err : String)
  | disappeared (nodeName : String)
  deriving DecidableEq, Repr

/-- One iteration of the deficit-resolver trigger function's loop body:
re-look the name up via `Get`; if found, invoke `ResolveIPDeficit`
(taken as the parameter `resolve`, its Go code not being among the
sources) and log on error; otherwise log the disappearance. -/
def handleOne (resolve : Node → Except String Unit) (m : NodeManager)
    (nodeName : String) : HandlerEvent :=
  match m.Get nodeName with
  | some node =>
      match resolve node with
      | Except.ok _ => HandlerEvent.resolved nodeName
      | Except.error e => HandlerEvent.resolveFailed nodeName e
  | none => HandlerEvent.disappeared nodeName

/-- The deficit-resolver `TriggerFunc` of `NewNodeManager`: iterate over
the batch of reasons (node names), handling each in turn; errors and
disappearances are logged and never stop the loop. -/
def deficitResolverFunc (resolve : Node → Except String Unit)
    (m : NodeManager) : List String → List HandlerEvent
  | [] => []
  | nodeName :: rest =>
      handleOne resolve m nodeName :: deficitResolverFunc resolve m rest

/-- The five fleet-wide accumulators of `Resync`. -/
structure FleetTotals where
  totalUsed : Int
  totalAvailable : Int
  totalNeeded : Int
  remainingInterfaces : Int
  nodesAtCapacity : Int
  deriving DecidableEq, Repr

/-- The zero-initialized accumulators at the start of a `Resync` pass. -/
def FleetTotals.zero : FleetTotals := ⟨0, 0, 0, 0, 0⟩

/-- Observable external call of a `Resync` pass, in program order: one
`visit` per loop iteration, a `TriggerWithReason` enqueue on the deficit
resolver, the `SyncToAPIServer` push, and the gauge emissions after the
loop. -/
inductive ResyncEvent where
  | visit (nodeName : String)
  | enqueueDeficit (nodeName : String)
  | syncToAPIServer (nodeName : String)
  | setAllocatedIPs (typ : String) (allocated : Int)
  | setAvailableENIs (available : Int)
  | setNodesAtCapacity (nodes : Int)
  deriving DecidableEq, Repr

/-- One node's treatment at the top of the `Resync` loop body: clear
`resyncNeeded`, then run `recalculateLocked` (taken as the parameter
`recalc`, its Go code not being among the sources), returning the updated
node and the `allocationNeeded` flag. -/
def visitNode (recalc : Node → Node × Bool) (nd : Node) : Node × Bool :=
  recalc { nd with resyncNeeded := false }

/-- Result of the `Resync` loop: post-visit nodes in visit order, names
enqueued on the deficit resolver in order, fleet totals, and the event
trace. -/
structure ResyncResult where
  visited : List Node
  enqueued : List String
  totals : FleetTotals
  trace : List ResyncEvent
  deriving DecidableEq, Repr

/-- The `for` loop of `Resync` over the priority snapshot: per node, clear
`resyncNeeded`, recalculate, accumulate the five totals, enqueue the name
when `allocationNeeded && node.stats.remainingInterfaces > 0`, then push
the node's status to the API server. -/
def resyncLoop (recalc : Node → Node × Bool) : List Node → ResyncResult
  | [] => ⟨[], [], FleetTotals.zero, []⟩
  | node :: rest =>
      let r := visitNode recalc node
      let node2 := r.1
      let allocationNeeded := r.2
      let availableOnNode := node2.stats.availableIPs - node2.stats.usedIPs
      let enqueueHere : Bool :=
        allocationNeeded && decide (node2.stats.remainingInterfaces > 0)
      let tail := resyncLoop recalc rest
      { visited := node2 :: tail.visited
        enqueued := (if enqueueHere then [node2.name] else []) ++ tail.enqueued
        totals := ⟨node2.stats.usedIPs + tail.totals.totalUsed,
                   availableOnNode + tail.totals.totalAvailable,
                   node2.stats.neededIPs + tail.totals.totalNeeded,
                   node2.stats.remainingInterfaces + tail.totals.remainingInterfaces,
                   (if node2.atCapacity then 1 else 0) + tail.totals.nodesAtCapacity⟩
        trace := ResyncEvent.visit node.name
                   :: ((if enqueueHere then [ResyncEvent.enqueueDeficit node2.name] else [])
                       ++ (ResyncEvent.syncToAPIServer node2.name :: tail.trace)) }

/-- The five gauge emissions after the `Resync` loop, in program order. -/
def gaugeEvents (t : FleetTotals) : List ResyncEvent :=
  [ResyncEvent.setAllocatedIPs "used" t.totalUsed,
   ResyncEvent.setAllocatedIPs "available" t.totalAvailable,
   ResyncEvent.setAllocatedIPs "needed" t.totalNeeded,
   ResyncEvent.setAvailableENIs t.remainingInterfaces,
   ResyncEvent.setNodesAtCapacity t.nodesAtCapacity]

/-- `Resync`: run the loop over the priority snapshot
`GetNodesByNeededAddresses`, then emit the five fleet gauges. -/
def NodeManager.Resync (m : NodeManager) (recalc : Node → Node × Bool) : ResyncResult :=
  let r := resyncLoop recalc m.GetNodesByNeededAddresses
  { r with trace := r.trace ++ gaugeEvents r.totals }

/-- External lifecycle events routed into the registry. -/
inductive NodeEvent where
  | update (resource : CiliumNode)
  | delete (nodeName : String)
  deriving DecidableEq, Repr

/-- Apply one lifecycle event to the manager. -/
def NodeManager.applyEvent (m : NodeManager) : NodeEvent → NodeManager
  | NodeEvent.update r => (m.Update r).1
  | NodeEvent.delete nodeName => m.Delete nodeName

/-- Apply a sequence of lifecycle events in order. -/
def NodeManager.applyEvents (m : NodeManager) (evs : List NodeEvent) : NodeManager :=
  evs.foldl NodeManager.applyEvent m

/-- The set of registered node names. -/
def nameSet (m : NodeManager) : Finset String :=
  (m.nodes.map Prod.fst).toFinset

/-- Pure set semantics of one lifecycle event: update upserts the name,
delete removes it. -/
def eventSet (s : Finset String) : NodeEvent → Finset String
  | NodeEvent.update r => insert r.name s
  | NodeEvent.delete nodeName => s.erase nodeName

/-- Extract the visited node name from a trace event. -/
def visitName : ResyncEvent → Option String
  | ResyncEvent.visit nodeName => some nodeName
  | _ => none

/-- Whether a trace event is one of the five fleet-gauge emissions. -/
def isGauge : ResyncEvent → Bool
  | ResyncEvent.setAllocatedIPs _ _ => true
  | ResyncEvent.setAvailableENIs _ => true
  | ResyncEvent.setNodesAtCapacity _ => true
  | _ => false

/-- Extract type and value of a `SetAllocatedIPs` gauge emission. -/
def allocGauge : ResyncEvent → Option (String × Int)
  | ResyncEvent.setAllocatedIPs typ v => some (typ, v)
  | _ => none

/-- Extract the value of a `SetNodesAtCapacity` gauge emission. -/
def capacityGauge : ResyncEvent → Option Int
  | ResyncEvent.setNodesAtCapacity v => some v
  | _ => none

/-- Fleet totals recomputed directly from a list of post-visit nodes, for
comparison with the loop's running accumulation. -/
def listTotals (nds : List Node) : FleetTotals :=
  ⟨(nds.map (fun nd => nd.stats.usedIPs)).sum,
   (nds.map (fun nd => nd.stats.availableIPs - nd.stats.usedIPs)).sum,
   (nds.map (fun nd => nd.stats.neededIPs)).sum,
   (nds.map (fun nd => nd.stats.remainingInterfaces)).sum,
   ((nds.filter (fun nd => nd.atCapacity)).length : Int)⟩

/-- A node carrying only a shortfall, for concrete fleets. -/
def mkNode (nm : String) (needed : Int) : Node :=
  { name := nm
    stats := ⟨0, 0, needed, 0⟩
    resyncNeeded := false
    resource := none }

/-- A concrete fleet whose three nodes have shortfalls 5, 0 and 3. -/
def fleet530 : NodeManager :=
  { nodes := [("a", mkNode "a" 5), ("b", mkNode "b" 0), ("c", mkNode "c" 3)]
    resyncTrigger := none
    deficitResolver := none }

/-- The list of post-visit nodes of a pass: each snapshot node after its
`resyncNeeded` flag is cleared and `recalculateLocked` has run. -/
def postVisit (recalc : Node → Node × Bool) (nds : List Node) : List Node :=
  nds.map (fun nd => (visitNode recalc nd).1)

/-- Modelled from the spec: a `recalculateLocked` outcome realizing the
spec's scenario — the recompute yields a shortfall of 2 and reports that
allocation is needed. -/
def scenarioRecalc (nd : Node) : Node × Bool :=
  ({ nd with stats := { nd.stats with neededIPs := 2 } }, true)

/-- The spec scenario's node "worker-1": available=2, used=2, with a given
remaining-interface count. -/
def scenarioNode (remaining : Int) : Node :=
  { name := "worker-1"
    stats := { availableIPs := 2
               usedIPs := 2
               neededIPs := 0
               remainingInterfaces := remaining }
    resyncNeeded := true
    resource := none }

/-- A recompute stub that touches nothing and reports no need, for
concrete witnesses. -/
def idRecalc (nd : Node) : Node × Bool := (nd, false)

/-- A one-node fleet for concrete witnesses. -/
def fleetOne : NodeManager :=
  { nodes := [("w", mkNode "w" 0)]
    resyncTrigger := none
    deficitResolver := none }

/-- A resolve stub that always succeeds, for concrete witnesses. -/
def okResolve : Node → Except String Unit := fun _ => Except.ok ()

/-- A concrete resource for concrete witnesses. -/
def resW : CiliumNode := { name := "n1", payload := 0 }

/-- The empty manager, for concrete witnesses. -/
def emptyMgr : NodeManager :=
  { nodes := [], resyncTrigger := none, deficitResolver := none }

/- ### Theorems -/

theorem mapReplace_map_fst (k : String) (v : Node) (l : List (String × Node)) :
    (mapReplace k v l).map Prod.fst = l.map Prod.fst := by
  induction l with
  | nil => rfl
  | cons p rest ih =>
      obtain ⟨k', v'⟩ := p
      by_cases h : k' = k <;> simp [mapReplace, h, ih]

theorem mapLookup_some_mem {k : String} {l : List (String × Node)} {v : Node}
    (h : mapLookup k l = some v) : k ∈ l.map Prod.fst := by
  induction l with
  | nil => simp [mapLookup] at h
  | cons p rest ih =>
      obtain ⟨k', v'⟩ := p
      by_cases hk : k' = k
      · simp [hk]
      · simp only [mapLookup, hk, if_false] at h
        simp [ih h]

theorem nameSet_applyEvent (m : NodeManager) (e : NodeEvent) :
    nameSet (m.applyEvent e) = eventSet (nameSet m) e := by
  cases e with
  | update r =>
      simp only [NodeManager.applyEvent, NodeManager.Update, eventSet]
      cases h : mapLookup r.name m.nodes with
      | some node =>
          simp only [nameSet, mapReplace_map_fst]
          exact (Finset.insert_eq_self.mpr (List.mem_toFinset.mpr (mapLookup_some_mem h))).symm
      | none =>
          ext x
          simp only [nameSet, List.map_append, List.mem_toFinset, List.mem_append,
            List.map_cons, List.map_nil, List.mem_cons, Finset.mem_insert,
            List.not_mem_nil, or_false]
          tauto
  | delete nodeName =>
      ext x
      simp only [NodeManager.applyEvent, NodeManager.Delete, eventSet, nameSet,
        List.mem_toFinset, List.mem_map, List.mem_filter, Finset.mem_erase,
        bne_iff_ne, ne_eq]
      constructor
      · rintro ⟨p, ⟨hp, hne⟩, rfl⟩
        exact ⟨hne, p, hp, rfl⟩
      · rintro ⟨hne, p, hp, rfl⟩
        exact ⟨p, ⟨hp, hne⟩, rfl⟩

/-- C4: for every finite sequence of `Update`/`Delete` calls, the set of
registered node names afterwards equals the fold of the events over set
semantics (update upserts the name, delete removes it). -/
theorem registry_set_semantics :
    ∀ (evs : List NodeEvent) (m : NodeManager),
      nameSet (m.applyEvents evs) = evs.foldl eventSet (nameSet m) := by
  intro evs
  induction evs with
  | nil => intro m; rfl
  | cons e rest ih =>
      intro m
      simp only [NodeManager.applyEvents, List.foldl_cons]
      rw [← nameSet_applyEvent]
      exact ih (m.applyEvent e)

/-- C1: `GetNodesByNeededAddresses` returns every node of the registry
exactly once (a permutation of the map's values), sorted in non-increasing
order of `getNeededAddresses`; on a fleet with shortfalls [5, 0, 3] the
returned order of shortfalls is [5, 3, 0]. -/
theorem getNodesByNeededAddresses_sorted_perm :
    (∀ m : NodeManager,
        (m.GetNodesByNeededAddresses).Perm (m.nodes.map Prod.snd) ∧
        (m.GetNodesByNeededAddresses).Pairwise
          (fun a b => b.getNeededAddresses ≤ a.getNeededAddresses)) ∧
    (fleet530.GetNodesByNeededAddresses).map Node.getNeededAddresses = [5, 3, 0] := by
  constructor
  · intro m
    refine ⟨List.perm_insertionSort needGE _, ?_⟩
    exact (List.sorted_insertionSort needGE (m.nodes.map Prod.snd)).imp (fun h => h)
  · decide

theorem resyncLoop_visited (recalc : Node → Node × Bool) (l : List Node) :
    (resyncLoop recalc l).visited = postVisit recalc l := by
  induction l with
  | nil => rfl
  | cons nd rest ih => simp [resyncLoop, postVisit] at ih ⊢; exact ih

theorem resyncLoop_enqueued (recalc : Node → Node × Bool) (l : List Node) :
    (resyncLoop recalc l).enqueued =
      ((l.map (visitNode recalc)).filter
          (fun p => p.2 && decide (p.1.stats.remainingInterfaces > 0))).map
        (fun p => p.1.name) := by
  induction l with
  | nil => rfl
  | cons nd rest ih =>
      simp only [resyncLoop, List.map_cons, List.filter_cons]
      by_cases h : ((visitNode recalc nd).2
          && decide ((visitNode recalc nd).1.stats.remainingInterfaces > 0)) = true
      · simp [h, ih]
      · rw [Bool.not_eq_true] at h
        simp [h, ih]

theorem resyncLoop_totals (recalc : Node → Node × Bool) (l : List Node) :
    (resyncLoop recalc l).totals = listTotals (postVisit recalc l) := by
  induction l with
  | nil => rfl
  | cons nd rest ih =>
      simp only [resyncLoop, postVisit, List.map_cons, listTotals, List.sum_cons,
        List.filter_cons] at ih ⊢
      rw [ih]
      by_cases h : (visitNode recalc nd).1.atCapacity = true <;>
        simp [h, FleetTotals.mk.injEq] <;> ring_nf

theorem resyncLoop_trace_visits (recalc : Node → Node × Bool) (l : List Node) :
    (resyncLoop recalc l).trace.filterMap visitName = l.map Node.name := by
  induction l with
  | nil => rfl
  | cons nd rest ih =>
      simp only [resyncLoop, List.filterMap_cons, List.filterMap_append, visitName]
      by_cases h : ((visitNode recalc nd).2
          && decide ((visitNode recalc nd).1.stats.remainingInterfaces > 0)) = true <;>
        simp [h, visitName, ih]

theorem resyncLoop_trace_no_gauge (recalc : Node → Node × Bool) (l : List Node) :
    ∀ e ∈ (resyncLoop recalc l).trace, isGauge e = false := by
  induction l with
  | nil => intro e he; simp [resyncLoop] at he
  | cons nd rest ih =>
      intro e he
      simp only [resyncLoop, List.mem_cons, List.mem_append] at he
      rcases he with rfl | he | rfl | he
      · rfl
      · split at he
        · rw [List.mem_singleton] at he
          subst he; rfl
        · simp at he
      · rfl
      · exact ih e he

/-- C2: during a `Resync` pass a visited node's name is enqueued on the
deficit-resolution trigger iff `recalculateLocked` returned
`allocationNeeded = true` and the node's `stats.remainingInterfaces > 0`
afterwards; the spec's scenario node (available=2, used=2, recompute
yielding needed=2 and allocationNeeded=true) is enqueued exactly when
`remainingInterfaces > 0`. -/
theorem resync_enqueue_iff_needed_and_capacity :
    (∀ (recalc : Node → Node × Bool) (snapshot : List Node),
        (resyncLoop recalc snapshot).enqueued =
          ((snapshot.map (visitNode recalc)).filter
              (fun p => p.2 && decide (p.1.stats.remainingInterfaces > 0))).map
            (fun p => p.1.name)) ∧
    (∀ remaining : Int,
        (visitNode scenarioRecalc (scenarioNode remaining)).1.stats.neededIPs = 2 ∧
        (visitNode scenarioRecalc (scenarioNode remaining)).2 = true ∧
        ("worker-1" ∈ (resyncLoop scenarioRecalc [scenarioNode remaining]).enqueued
          ↔ remaining > 0)) := by
  refine ⟨resyncLoop_enqueued, ?_⟩
  intro remaining
  refine ⟨rfl, rfl, ?_⟩
  simp only [resyncLoop, visitNode, scenarioRecalc, scenarioNode]
  by_cases h : remaining > 0 <;> simp [h]

/-- C3: in a `Resync` pass a node counts toward the nodes-at-capacity
gauge iff its post-recompute stats satisfy `remainingInterfaces == 0` and
`availableIPs - usedIPs == 0`; the value passed to `SetNodesAtCapacity` is
the number of visited nodes satisfying that predicate. -/
theorem resync_nodes_at_capacity_count :
    ∀ (recalc : Node → Node × Bool) (m : NodeManager),
      (∀ nd : Node, nd.atCapacity = true ↔
          (nd.stats.remainingInterfaces = 0 ∧
           nd.stats.availableIPs - nd.stats.usedIPs = 0)) ∧
      (m.Resync recalc).totals.nodesAtCapacity =
        (((postVisit recalc m.GetNodesByNeededAddresses).filter
            (fun nd => nd.atCapacity)).length : Int) ∧
      (m.Resync recalc).trace.filterMap capacityGauge =
        [(((postVisit recalc m.GetNodesByNeededAddresses).filter
            (fun nd => nd.atCapacity)).length : Int)] := by
  intro recalc m
  have htot : (m.Resync recalc).totals = listTotals (postVisit recalc m.GetNodesByNeededAddresses) := by
    simp only [NodeManager.Resync]
    exact resyncLoop_totals recalc m.GetNodesByNeededAddresses
  refine ⟨?_, ?_, ?_⟩
  · intro nd
    simp [Node.atCapacity]
  · rw [htot]; rfl
  · have hloop : (resyncLoop recalc m.GetNodesByNeededAddresses).trace.filterMap capacityGauge = [] := by
      rw [List.filterMap_eq_nil_iff]
      intro e he
      have := resyncLoop_trace_no_gauge recalc m.GetNodesByNeededAddresses e he
      cases e <;> simp_all [isGauge, capacityGauge]
    simp only [NodeManager.Resync, List.filterMap_append, hloop, List.nil_append]
    rw [resyncLoop_totals recalc m.GetNodesByNeededAddresses]
    rfl

/-- C5: a `Resync` pass visits nodes exactly in the order of the
`GetNodesByNeededAddresses` snapshot taken at pass start, and the five
fleet gauges are emitted only after every snapshot node has been
processed, with values accumulated over all visited nodes. -/
theorem resync_visit_order_and_gauge_timing :
    ∀ (recalc : Node → Node × Bool) (m : NodeManager),
      ((m.Resync recalc).trace.filterMap visitName =
        (m.GetNodesByNeededAddresses).map Node.name) ∧
      ((m.Resync recalc).visited = postVisit recalc m.GetNodesByNeededAddresses) ∧
      (∃ pre,
        (m.Resync recalc).trace = pre ++ gaugeEvents (m.Resync recalc).totals ∧
        (∀ e ∈ pre, isGauge e = false) ∧
        pre.filterMap visitName = (m.GetNodesByNeededAddresses).map Node.name) ∧
      (m.Resync recalc).totals = listTotals (postVisit recalc m.GetNodesByNeededAddresses) := by
  intro recalc m
  refine ⟨?_, ?_, ?_, ?_⟩
  · simp only [NodeManager.Resync, List.filterMap_append,
      resyncLoop_trace_visits recalc m.GetNodesByNeededAddresses]
    simp [gaugeEvents, visitName]
  · exact resyncLoop_visited recalc m.GetNodesByNeededAddresses
  · refine ⟨(resyncLoop recalc m.GetNodesByNeededAddresses).trace, rfl,
      resyncLoop_trace_no_gauge recalc m.GetNodesByNeededAddresses,
      resyncLoop_trace_visits recalc m.GetNodesByNeededAddresses⟩
  · exact resyncLoop_totals recalc m.GetNodesByNeededAddresses

/-- C9: the "available" fleet gauge reports spare capacity: the
`SetAllocatedIPs` emissions of a pass are, in order, "used" with the sum
of `usedIPs`, "available" with the sum of `availableIPs - usedIPs`, and
"needed" with the sum of `neededIPs`, over the visited nodes. -/
theorem resync_available_gauge_is_spare :
    ∀ (recalc : Node → Node × Bool) (m : NodeManager),
      (m.Resync recalc).trace.filterMap allocGauge =
        [("used", ((postVisit recalc m.GetNodesByNeededAddresses).map
            (fun nd => nd.stats.usedIPs)).sum),
         ("available", ((postVisit recalc m.GetNodesByNeededAddresses).map
            (fun nd => nd.stats.availableIPs - nd.stats.usedIPs)).sum),
         ("needed", ((postVisit recalc m.GetNodesByNeededAddresses).map
            (fun nd => nd.stats.neededIPs)).sum)] := by
  intro recalc m
  have hloop : (resyncLoop recalc m.GetNodesByNeededAddresses).trace.filterMap allocGauge = [] := by
    rw [List.filterMap_eq_nil_iff]
    intro e he
    have := resyncLoop_trace_no_gauge recalc m.GetNodesByNeededAddresses e he
    cases e <;> simp_all [isGauge, allocGauge]
  simp only [NodeManager.Resync, List.filterMap_append, hloop, List.nil_append]
  rw [resyncLoop_totals recalc m.GetNodesByNeededAddresses]
  rfl

/-- C10: every node visited by a `Resync` pass has its `resyncNeeded` flag
cleared unconditionally before `recalculateLocked` runs, so — given that
the recompute itself leaves the flag alone, as its contract requires —
every visited node ends the pass with `resyncNeeded = false`, whether or
not it was enqueued for deficit resolution. -/
theorem resync_clears_resync_flag :
    ∀ (recalc : Node → Node × Bool) (m : NodeManager),
      (∀ nd : Node, ((recalc nd).1).resyncNeeded = nd.resyncNeeded) →
      (∀ nd : Node, visitNode recalc nd = recalc { nd with resyncNeeded := false }) ∧
      (∀ nd ∈ (m.Resync recalc).visited, nd.resyncNeeded = false) := by
  intro recalc m hpres
  refine ⟨fun _ => rfl, ?_⟩
  intro nd hnd
  have hv : (m.Resync recalc).visited = postVisit recalc m.GetNodesByNeededAddresses :=
    resyncLoop_visited recalc m.GetNodesByNeededAddresses
  rw [hv] at hnd
  simp only [postVisit, List.mem_map] at hnd
  obtain ⟨src, _, rfl⟩ := hnd
  rw [visitNode, hpres]

theorem resync_clears_resync_flag_witness :
    (mkNode "w" 0).resyncNeeded = false :=
  (resync_clears_resync_flag idRecalc fleetOne (fun _ => rfl)).2
    (mkNode "w" 0) (by decide)

/-- C6: `NewNodeManager` fails exactly when the initialization of the
deficit-resolver trigger or of the resync trigger fails; on success the
returned manager has an empty node map and both triggers wired. -/
theorem newNodeManager_error_iff_trigger_failure :
    (∀ deficitInit resyncInit : Except String Trigger,
        (NewNodeManager deficitInit resyncInit).isOk =
          (deficitInit.isOk && resyncInit.isOk)) ∧
    (∀ d r : Trigger,
        NewNodeManager (Except.ok d) (Except.ok r) =
          Except.ok { nodes := [], resyncTrigger := some r, deficitResolver := some d }) := by
  constructor
  · intro di ri
    cases di <;> cases ri <;> rfl
  · intro d r
    rfl

/-- C7: the deficit-resolver trigger function handles every name of the
batch — one outcome per name, in order: a name no longer registered is
logged as disappeared, a registered node has `ResolveIPDeficit` invoked
and a failure is only logged; neither stops the remaining names from
being processed. -/
theorem deficit_resolver_processes_every_name :
    ∀ (resolve : Node → Except String Unit) (m : NodeManager) (reasons : List String),
      (deficitResolverFunc resolve m reasons).length = reasons.length ∧
      (∀ i : Nat,
        (deficitResolverFunc resolve m reasons)[i]? =
          (reasons[i]?).map (handleOne resolve m)) ∧
      (∀ nodeName : String, m.Get nodeName = none →
        handleOne resolve m nodeName = HandlerEvent.disappeared nodeName) ∧
      (∀ (nodeName : String) (nd : Node), m.Get nodeName = some nd →
        handleOne resolve m nodeName =
          (match resolve nd with
           | Except.ok _ => HandlerEvent.resolved nodeName
           | Except.error e => HandlerEvent.resolveFailed nodeName e)) := by
  intro resolve m reasons
  refine ⟨?_, ?_, ?_, ?_⟩
  · induction reasons with
    | nil => rfl
    | cons nodeName rest ih => simp [deficitResolverFunc, ih]
  · intro i
    induction reasons generalizing i with
    | nil => simp [deficitResolverFunc]
    | cons nodeName rest ih =>
        cases i with
        | zero => simp [deficitResolverFunc]
        | succ j => simpa [deficitResolverFunc] using ih j
  · intro nodeName h
    simp [handleOne, h]
  · intro nodeName nd h
    simp [handleOne, h]

theorem deficit_resolver_processes_every_name_witness :
    handleOne okResolve emptyMgr "ghost" = HandlerEvent.disappeared "ghost" :=
  (deficit_resolver_processes_every_name okResolve emptyMgr ["ghost"]).2.2.1
    "ghost" (by decide)

/-- C8: an `Update` for a name not yet registered creates a fresh node
bound under that name (the resource merged in), returns `changed = true`,
and a subsequent `GetNames` includes the name. -/
theorem update_unseen_name_creates_node :
    ∀ (m : NodeManager) (resource : CiliumNode),
      mapLookup resource.name m.nodes = none →
      (m.Update resource).2 = true ∧
      (m.Update resource).1.nodes =
        m.nodes ++ [(resource.name,
          { name := resource.name
            stats := ⟨0, 0, 0, 0⟩
            resyncNeeded := false
            resource := some resource })] ∧
      resource.name ∈ (m.Update resource).1.GetNames := by
  intro m resource h
  refine ⟨?_, ?_, ?_⟩
  · simp [NodeManager.Update, h, Node.updatedResource]
  · simp [NodeManager.Update, h, Node.updatedResource]
  · simp [NodeManager.Update, h, Node.updatedResource, NodeManager.GetNames]

theorem update_unseen_name_creates_node_witness :
    (emptyMgr.Update resW).2 = true :=
  (update_unseen_name_creates_node emptyMgr resW (by decide)).1

end CiliumENI
